import Mathlib

/-!
Verification of the texture-atlas conversion core of PolytoriaAvatarToolkit.

The repository ships two variants of the same browser script (`src/script.js`
and the unnamed `src/unnamed/part_000`).  Both embed two compiled-in atlas
maps (`rbxMapData`, `polyMapData`) and a click handler that, given a mode
string and a decoded source image, allocates a destination canvas
(1024x1024 for mode `rbx2poly`, 585x559 otherwise) and copies each region
of the source map onto the corresponding region of the destination map with
`ctx.drawImage(img, sx, sy, sw, sh, dx, dy, dw, dh)`.

The browser primitive `drawImage` is external to the repository; we model it
as a per-pixel rectangle copy with nearest-neighbour resampling (destination
pixel `(i, j)` of the destination rectangle samples source pixel
`(sx + i*sw/dw, sy + j*sh/dh)`), source-over compositing specialised to
binary alpha (a sampled pixel with alpha 0 leaves the canvas pixel
unchanged), and reads outside the source image yielding the transparent
colour.  Everything else is transcribed directly from the JavaScript source.
-/

/-- An RGBA colour with 8-bit channels (we keep plain naturals; the claims
only use fully transparent and fully set channels). -/
structure Color where
  r : Nat
  g : Nat
  b : Nat
  a : Nat
deriving DecidableEq

/-- The fully transparent colour: the initial state of every pixel of a
freshly allocated canvas. -/
def Color.clear : Color := ⟨0, 0, 0, 0⟩

/-- Pure red, fully visible. -/
def Color.red : Color := ⟨255, 0, 0, 255⟩

/-- A decoded raster image: dimensions plus a pixel function. -/
structure Image where
  width : Nat
  height : Nat
  pix : Nat → Nat → Color

/-- Reading a pixel of an image: coordinates outside the image bounds read
as transparent (this is the out-of-bounds behaviour the converter relies on
when the uploaded image is smaller than the expected canonical size). -/
def getPixel (img : Image) (x y : Nat) : Color :=
  if x < img.width ∧ y < img.height then img.pix x y else Color.clear

/-- An axis-aligned region rectangle `[x, y, w, h]`, exactly the `rect`
arrays of `rbxMapData` and `polyMapData` in `src/script.js`. -/
structure Rect where
  x : Nat
  y : Nat
  w : Nat
  h : Nat
deriving DecidableEq

/-- Membership of a pixel coordinate in a rectangle. -/
def inRect (px py : Nat) (r : Rect) : Prop :=
  r.x ≤ px ∧ px < r.x + r.w ∧ r.y ≤ py ∧ py < r.y + r.h

instance (px py : Nat) (r : Rect) : Decidable (inRect px py r) := by
  unfold inRect; infer_instance

/-- An atlas map: the two region categories, iterated by the converter in
the fixed order `top_parts` then `bottom_parts`. -/
structure MapData where
  top_parts : List Rect
  bottom_parts : List Rect
deriving DecidableEq

/-- `rbxMapData` from `src/script.js` lines 246-269. -/
def rbxMapData : MapData :=
  { top_parts := [
      ⟨231, 8, 128, 64⟩,
      ⟨165, 74, 64, 128⟩,
      ⟨231, 74, 128, 128⟩,
      ⟨361, 74, 64, 128⟩,
      ⟨427, 74, 128, 128⟩,
      ⟨231, 204, 128, 64⟩],
    bottom_parts := [
      ⟨217, 289, 64, 64⟩,
      ⟨308, 289, 64, 64⟩,
      ⟨19, 355, 64, 128⟩,
      ⟨85, 355, 64, 128⟩,
      ⟨151, 355, 64, 128⟩,
      ⟨217, 355, 64, 128⟩,
      ⟨308, 355, 64, 128⟩,
      ⟨374, 355, 64, 128⟩,
      ⟨440, 355, 64, 128⟩,
      ⟨506, 355, 64, 128⟩,
      ⟨217, 485, 64, 64⟩,
      ⟨308, 485, 64, 64⟩] }

/-- `polyMapData` from `src/script.js` lines 271-294. -/
def polyMapData : MapData :=
  { top_parts := [
      ⟨199, 74, 200, 100⟩,
      ⟨89, 184, 100, 200⟩,
      ⟨199, 184, 200, 200⟩,
      ⟨409, 184, 100, 200⟩,
      ⟨519, 184, 200, 200⟩,
      ⟨199, 394, 200, 100⟩],
    bottom_parts := [
      ⟨382, 557, 100, 100⟩,
      ⟨538, 557, 100, 100⟩,
      ⟨52, 667, 100, 200⟩,
      ⟨162, 667, 100, 200⟩,
      ⟨272, 667, 100, 200⟩,
      ⟨382, 667, 100, 200⟩,
      ⟨538, 667, 100, 200⟩,
      ⟨649, 667, 100, 200⟩,
      ⟨759, 667, 100, 200⟩,
      ⟨870, 667, 100, 200⟩,
      ⟨382, 877, 100, 100⟩,
      ⟨538, 877, 100, 100⟩] }

/-- The source pixel sampled for destination pixel `(px, py)` when copying
rectangle `src` onto rectangle `dst` (nearest-neighbour resampling). -/
def samplePix (img : Image) (src dst : Rect) (px py : Nat) : Color :=
  getPixel img (src.x + (px - dst.x) * src.w / dst.w)
               (src.y + (py - dst.y) * src.h / dst.h)

/-- Model of the nine-argument Canvas2D call
`ctx.drawImage(img, sx, sy, sw, sh, dx, dy, dw, dh)` used by the converter:
the source rectangle `src` of `img` is resampled onto the destination
rectangle `dst` of `canvas` (nearest-neighbour), compositing source-over
specialised to binary alpha (a sampled pixel with alpha 0 leaves the canvas
pixel unchanged).  Pixels outside `dst` are untouched. -/
def drawImage (img : Image) (src dst : Rect) (canvas : Image) : Image :=
  { canvas with
    pix := fun px py =>
      if inRect px py dst then
        if (samplePix img src dst px py).a = 0 then canvas.pix px py
        else samplePix img src dst px py
      else canvas.pix px py }

/-- The inner region loop of the click handler:
`srcMap[category].forEach((srcNode, index) => { const destNode =
destMap[category][index]; if (!destNode) return; ...draw... })`.
`i` is the running index, `dst` the destination category's region list;
the result is the list of (source rect, destination rect) copies performed,
in order. -/
def copyLoop (dst : List Rect) : Nat → List Rect → List (Rect × Rect)
  | _, [] => []
  | i, s :: rest =>
    match dst[i]? with
    | some d => (s, d) :: copyLoop dst (i + 1) rest
    | none => copyLoop dst (i + 1) rest

/-- The copies performed for one category. -/
def categoryCopies (src dst : List Rect) : List (Rect × Rect) :=
  copyLoop dst 0 src

/-- The full ordered copy sequence of one conversion:
`['top_parts', 'bottom_parts'].forEach(category => ...)`. -/
def copySequence (srcMap dstMap : MapData) : List (Rect × Rect) :=
  categoryCopies srcMap.top_parts dstMap.top_parts ++
    categoryCopies srcMap.bottom_parts dstMap.bottom_parts

/-- A freshly allocated canvas: every pixel transparent. -/
def blank (w h : Nat) : Image :=
  { width := w, height := h, pix := fun _ _ => Color.clear }

/-- The conversion core, generalised over the two map tables and the canvas
dimensions: allocate the canvas, then perform every region copy in order. -/
def convertWith (srcMap dstMap : MapData) (w h : Nat) (img : Image) : Image :=
  (copySequence srcMap dstMap).foldl
    (fun canvas sd => drawImage img sd.1 sd.2 canvas) (blank w h)

/-- The conversion as dispatched by the click handler of `src/script.js`
lines 941-970: `isRbx2Poly = mode === 'rbx2poly'` selects the map pair and
the canvas dimensions (`1024x1024` when true, `585x559` otherwise). -/
def convert (img : Image) (mode : String) : Image :=
  if mode = "rbx2poly" then convertWith rbxMapData polyMapData 1024 1024 img
  else convertWith polyMapData rbxMapData 585 559 img

/-- Resolution of the mode from the checked radio button,
`document.querySelector('input[name="convertMode"]:checked')?.value ||
'rbx2poly'`: no checked element, or a checked element whose value is the
empty string (falsy in JavaScript), falls back to `'rbx2poly'`. -/
def resolveMode (sel : Option String) : String :=
  match sel with
  | none => "rbx2poly"
  | some s => if s = "" then "rbx2poly" else s

/-- The whole click-handler conversion, from the radio-button selection. -/
def convertFromSelection (sel : Option String) (img : Image) : Image :=
  convert img (resolveMode sel)

/-- The direction-dependent download filename (`link.download`). -/
def downloadName (mode : String) : String :=
  if mode = "rbx2poly" then "polytoria_template.png" else "roblox_template.png"

namespace Part000

/-- `rbxMapData` as embedded in `src/unnamed/part_000` lines 80-103. -/
def rbxMapData : MapData :=
  { top_parts := [
      ⟨231, 8, 128, 64⟩,
      ⟨165, 74, 64, 128⟩,
      ⟨231, 74, 128, 128⟩,
      ⟨361, 74, 64, 128⟩,
      ⟨427, 74, 128, 128⟩,
      ⟨231, 204, 128, 64⟩],
    bottom_parts := [
      ⟨217, 289, 64, 64⟩,
      ⟨308, 289, 64, 64⟩,
      ⟨19, 355, 64, 128⟩,
      ⟨85, 355, 64, 128⟩,
      ⟨151, 355, 64, 128⟩,
      ⟨217, 355, 64, 128⟩,
      ⟨308, 355, 64, 128⟩,
      ⟨374, 355, 64, 128⟩,
      ⟨440, 355, 64, 128⟩,
      ⟨506, 355, 64, 128⟩,
      ⟨217, 485, 64, 64⟩,
      ⟨308, 485, 64, 64⟩] }

/-- `polyMapData` as embedded in `src/unnamed/part_000` lines 105-128. -/
def polyMapData : MapData :=
  { top_parts := [
      ⟨199, 74, 200, 100⟩,
      ⟨89, 184, 100, 200⟩,
      ⟨199, 184, 200, 200⟩,
      ⟨409, 184, 100, 200⟩,
      ⟨519, 184, 200, 200⟩,
      ⟨199, 394, 200, 100⟩],
    bottom_parts := [
      ⟨382, 557, 100, 100⟩,
      ⟨538, 557, 100, 100⟩,
      ⟨52, 667, 100, 200⟩,
      ⟨162, 667, 100, 200⟩,
      ⟨272, 667, 100, 200⟩,
      ⟨382, 667, 100, 200⟩,
      ⟨538, 667, 100, 200⟩,
      ⟨649, 667, 100, 200⟩,
      ⟨759, 667, 100, 200⟩,
      ⟨870, 667, 100, 200⟩,
      ⟨382, 877, 100, 100⟩,
      ⟨538, 877, 100, 100⟩] }

/-- The inner region loop of the `part_000` click handler (lines 646-654);
textually the same `forEach` with index and `destMap[category][index]`
lookup as in `script.js`. -/
def copyLoop (dst : List Rect) : Nat → List Rect → List (Rect × Rect)
  | _, [] => []
  | i, s :: rest =>
    match dst[i]? with
    | some d => (s, d) :: copyLoop dst (i + 1) rest
    | none => copyLoop dst (i + 1) rest

/-- The copies performed for one category in `part_000`. -/
def categoryCopies (src dst : List Rect) : List (Rect × Rect) :=
  copyLoop dst 0 src

/-- The full ordered copy sequence of one `part_000` conversion. -/
def copySequence (srcMap dstMap : MapData) : List (Rect × Rect) :=
  categoryCopies srcMap.top_parts dstMap.top_parts ++
    categoryCopies srcMap.bottom_parts dstMap.bottom_parts

/-- The copy sequence `part_000` performs for a given mode string
(lines 634-637: `isRbx2Poly = mode === 'rbx2poly'`). -/
def copySequenceOf (mode : String) : List (Rect × Rect) :=
  if mode = "rbx2poly" then copySequence rbxMapData polyMapData
  else copySequence polyMapData rbxMapData

/-- Canvas width chosen by `part_000` (line 643). -/
def canvasWidth (mode : String) : Nat :=
  if mode = "rbx2poly" then 1024 else 585

/-- Canvas height chosen by `part_000` (line 644). -/
def canvasHeight (mode : String) : Nat :=
  if mode = "rbx2poly" then 1024 else 559

end Part000

/-- The copy sequence `script.js` performs for a given mode string. -/
def copySequenceOf (mode : String) : List (Rect × Rect) :=
  if mode = "rbx2poly" then copySequence rbxMapData polyMapData
  else copySequence polyMapData rbxMapData

/-- Canvas width chosen by `script.js` (line 956). -/
def canvasWidth (mode : String) : Nat :=
  if mode = "rbx2poly" then 1024 else 585

/-- Canvas height chosen by `script.js` (line 957). -/
def canvasHeight (mode : String) : Nat :=
  if mode = "rbx2poly" then 1024 else 559

/-- Strictly positive width and height. -/
def rectPositive (r : Rect) : Prop := 0 < r.w ∧ 0 < r.h

instance (r : Rect) : Decidable (rectPositive r) := by
  unfold rectPositive; infer_instance

/-- The rectangle lies fully inside a `w x h` canvas. -/
def rectInCanvas (r : Rect) (w h : Nat) : Prop :=
  r.x + r.w ≤ w ∧ r.y + r.h ≤ h

instance (r : Rect) (w h : Nat) : Decidable (rectInCanvas r w h) := by
  unfold rectInCanvas; infer_instance

/-- Two rectangles share no pixel. -/
def rectDisjoint (a b : Rect) : Prop :=
  a.x + a.w ≤ b.x ∨ b.x + b.w ≤ a.x ∨ a.y + a.h ≤ b.y ∨ b.y + b.h ≤ a.y

instance (a b : Rect) : Decidable (rectDisjoint a b) := by
  unfold rectDisjoint; infer_instance

/-- All rectangles of a map, both categories in declared order. -/
def allRects (m : MapData) : List Rect :=
  m.top_parts ++ m.bottom_parts

/-- The source platform's canonical width for a given mode (the `rbx2poly`
mode reads a Roblox template, canonical 585x559; any other mode reads a
Polytoria template, canonical 1024x1024). -/
def srcCanonicalWidth (mode : String) : Nat :=
  if mode = "rbx2poly" then 585 else 1024

/-- The source platform's canonical height for a given mode. -/
def srcCanonicalHeight (mode : String) : Nat :=
  if mode = "rbx2poly" then 559 else 1024

/-- A 585x559 image that is transparent except for a single red pixel at
`(199, 74)`, the top-left corner of region index 0 of the `top_parts`
category of `polyMapData`. -/
def redMarkerImage : Image :=
  { width := 585, height := 559,
    pix := fun x y => if x = 199 ∧ y = 74 then Color.red else Color.clear }

/-- Extensionality for images. -/
theorem Image.ext' {a b : Image} (hw : a.width = b.width)
    (hh : a.height = b.height) (hp : a.pix = b.pix) : a = b := by
  cases a; cases b; simp_all

theorem drawImage_width (img : Image) (s d : Rect) (c : Image) :
    (drawImage img s d c).width = c.width := rfl

theorem drawImage_height (img : Image) (s d : Rect) (c : Image) :
    (drawImage img s d c).height = c.height := rfl

/-- Folding region copies never changes the canvas dimensions. -/
theorem foldl_draw_width (img : Image) :
    ∀ (l : List (Rect × Rect)) (c : Image),
      (l.foldl (fun canvas sd => drawImage img sd.1 sd.2 canvas) c).width =
        c.width := by
  intro l
  induction l with
  | nil => intro c; rfl
  | cons p rest ih => intro c; exact ih (drawImage img p.1 p.2 c)

theorem foldl_draw_height (img : Image) :
    ∀ (l : List (Rect × Rect)) (c : Image),
      (l.foldl (fun canvas sd => drawImage img sd.1 sd.2 canvas) c).height =
        c.height := by
  intro l
  induction l with
  | nil => intro c; rfl
  | cons p rest ih => intro c; exact ih (drawImage img p.1 p.2 c)

theorem convertWith_width (srcMap dstMap : MapData) (w h : Nat) (img : Image) :
    (convertWith srcMap dstMap w h img).width = w :=
  foldl_draw_width img (copySequence srcMap dstMap) (blank w h)

theorem convertWith_height (srcMap dstMap : MapData) (w h : Nat) (img : Image) :
    (convertWith srcMap dstMap w h img).height = h :=
  foldl_draw_height img (copySequence srcMap dstMap) (blank w h)

/-- Once the running index is past the end of the destination list, the
region loop performs no further copies. -/
theorem copyLoop_of_le (dst : List Rect) :
    ∀ (src : List Rect) (i : Nat), dst.length ≤ i →
      copyLoop dst i src = [] := by
  intro src
  induction src with
  | nil => intro i _; rfl
  | cons s rest ih =>
    intro i h
    unfold copyLoop
    rw [List.getElem?_eq_none h]
    exact ih (i + 1) (Nat.le_succ_of_le h)

/-- The region loop started at index `i` produces exactly the index-matched
pairs of the remaining source regions with the destination regions from
position `i` on. -/
theorem copyLoop_eq_zip_drop (dst : List Rect) :
    ∀ (src : List Rect) (i : Nat),
      copyLoop dst i src = src.zip (dst.drop i) := by
  intro src
  induction src with
  | nil => intro i; rfl
  | cons s rest ih =>
    intro i
    cases hd : dst.drop i with
    | nil =>
      have hlen : dst.length ≤ i := List.drop_eq_nil_iff.mp hd
      rw [copyLoop_of_le dst (s :: rest) i hlen]
      simp
    | cons d tail =>
      have hget : dst[i]? = some d := by
        have h0 := List.getElem?_drop dst i 0
        rw [hd] at h0
        simpa using h0.symm
      have htail : dst.drop (i + 1) = tail := by
        have h1 := List.drop_drop 1 i dst
        rw [hd] at h1
        simpa using h1.symm
      unfold copyLoop
      rw [hget, ih (i + 1), htail]
      rfl

/-- The copies of one category are exactly the index-matched source and
destination region pairs: excess regions of the longer list are skipped. -/
theorem categoryCopies_eq_zip (src dst : List Rect) :
    categoryCopies src dst = src.zip dst := by
  rw [categoryCopies, copyLoop_eq_zip_drop dst src 0, List.drop_zero]

theorem drawImage_pix_outside (img : Image) (s d : Rect) (c : Image)
    (x y : Nat) (h : ¬ inRect x y d) :
    (drawImage img s d c).pix x y = c.pix x y := by
  simp [drawImage, h]

/-- A pixel outside every destination rectangle of a copy list is left
unchanged by the whole fold. -/
theorem foldl_draw_pix_outside (img : Image) :
    ∀ (l : List (Rect × Rect)) (c : Image) (x y : Nat),
      (∀ p ∈ l, ¬ inRect x y p.2) →
      (l.foldl (fun canvas sd => drawImage img sd.1 sd.2 canvas) c).pix x y =
        c.pix x y := by
  intro l
  induction l with
  | nil => intro c x y _; rfl
  | cons p rest ih =>
    intro c x y h
    have hp : ¬ inRect x y p.2 := h p (List.mem_cons_self p rest)
    have hrest : ∀ q ∈ rest, ¬ inRect x y q.2 := fun q hq =>
      h q (List.mem_cons_of_mem p hq)
    calc (List.foldl (fun canvas sd => drawImage img sd.1 sd.2 canvas)
            (drawImage img p.1 p.2 c) rest).pix x y
        = (drawImage img p.1 p.2 c).pix x y := ih _ x y hrest
      _ = c.pix x y := drawImage_pix_outside img p.1 p.2 c x y hp

/-- A pixel cannot lie in two disjoint rectangles. -/
theorem not_inRect_of_disjoint {a b : Rect} {x y : Nat}
    (hd : rectDisjoint a b) (ha : inRect x y a) : ¬ inRect x y b := by
  rcases ha with ⟨h1, h2, h3, h4⟩
  intro hb
  rcases hb with ⟨h5, h6, h7, h8⟩
  rcases hd with h | h | h | h <;> omega

/-- Region copies with disjoint destination rectangles commute. -/
theorem drawImage_comm (img : Image) (p q : Rect × Rect) (c : Image)
    (h : p = q ∨ rectDisjoint p.2 q.2) :
    drawImage img q.1 q.2 (drawImage img p.1 p.2 c) =
      drawImage img p.1 p.2 (drawImage img q.1 q.2 c) := by
  rcases h with h | h
  · subst h; rfl
  · refine Image.ext' rfl rfl (funext fun x => funext fun y => ?_)
    by_cases hq : inRect x y q.2
    case pos =>
      have hnp : ¬ inRect x y p.2 := by
        intro hp
        exact not_inRect_of_disjoint h hp hq
      simp [drawImage, hq, hnp]
    case neg =>
      by_cases hp : inRect x y p.2 <;> simp [drawImage, hq, hp]

/-- Folding region copies whose destination rectangles are pairwise equal
or disjoint is invariant under permutation of the copy list. -/
theorem foldl_draw_perm (img : Image) {l l' : List (Rect × Rect)}
    (hp : l.Perm l')
    (hcomm : ∀ p ∈ l, ∀ q ∈ l, p = q ∨ rectDisjoint p.2 q.2) (c : Image) :
    l.foldl (fun canvas sd => drawImage img sd.1 sd.2 canvas) c =
      l'.foldl (fun canvas sd => drawImage img sd.1 sd.2 canvas) c :=
  hp.foldl_eq'
    (fun p hp' q hq' z => drawImage_comm img p q z (hcomm p hp' q hq')) c

theorem convert_eq_of_eq (img : Image) (mode : String)
    (h : mode = "rbx2poly") :
    convert img mode = convertWith rbxMapData polyMapData 1024 1024 img := by
  unfold convert; rw [if_pos h]

theorem convert_eq_of_ne (img : Image) (mode : String)
    (h : mode ≠ "rbx2poly") :
    convert img mode = convertWith polyMapData rbxMapData 585 559 img := by
  unfold convert; rw [if_neg h]

theorem getPixel_oob (img : Image) (x y : Nat)
    (h : img.width ≤ x ∨ img.height ≤ y) :
    getPixel img x y = Color.clear := by
  unfold getPixel
  rw [if_neg (by omega)]

/-- Claim C1: for every direction and every decoded source image, `convert`
produces an output raster of exactly the destination platform's canonical
size — 1024x1024 for mode `rbx2poly`, 585x559 for the reverse direction —
regardless of the source image's dimensions. -/
theorem convert_output_canonical_size (img : Image) (mode : String) :
    (mode = "rbx2poly" →
      (convert img mode).width = 1024 ∧ (convert img mode).height = 1024) ∧
    (mode ≠ "rbx2poly" →
      (convert img mode).width = 585 ∧ (convert img mode).height = 559) := by
  constructor
  · intro h
    rw [convert_eq_of_eq img mode h]
    exact ⟨convertWith_width _ _ _ _ _, convertWith_height _ _ _ _ _⟩
  · intro h
    rw [convert_eq_of_ne img mode h]
    exact ⟨convertWith_width _ _ _ _ _, convertWith_height _ _ _ _ _⟩

/-- Witness for claim C1 at concrete inputs. -/
theorem convert_output_canonical_size_witness :
    (convert (blank 585 559) "rbx2poly").width = 1024 ∧
    (convert (blank 1024 1024) "poly2rbx").width = 585 :=
  ⟨((convert_output_canonical_size (blank 585 559) "rbx2poly").1 rfl).1,
   ((convert_output_canonical_size (blank 1024 1024) "poly2rbx").2
      (by decide)).1⟩

/-- Claim C2 counterexample: a direction value outside the two-valued
domain does not fail at all — the conversion silently defaults to the
Polytoria-to-Roblox platform pair, producing the same 585x559 output as the
reverse mode.  No `UnknownPlatform` failure path exists in the code. -/
theorem convert_unknown_mode_silently_defaults :
    convert (blank 585 559) "nonexistent" =
      convert (blank 585 559) "poly2rbx" ∧
    (convert (blank 585 559) "nonexistent").width = 585 ∧
    (convert (blank 585 559) "nonexistent").height = 559 := by
  refine ⟨rfl, ?_, ?_⟩ <;>
    rw [convert_eq_of_ne (blank 585 559) "nonexistent" (by decide)]
  · exact convertWith_width _ _ _ _ _
  · exact convertWith_height _ _ _ _ _

/-- Claim C2 amended: any direction value other than `rbx2poly` is treated
exactly like the reverse (Polytoria-to-Roblox) direction — the conversion
silently proceeds with the `polyMapData` to `rbxMapData` pair onto a
585x559 canvas and produces a normal output; it never fails. -/
theorem convert_unknown_mode_behaves_as_reverse (mode : String)
    (h : mode ≠ "rbx2poly") (img : Image) :
    convert img mode = convertWith polyMapData rbxMapData 585 559 img ∧
    (convert img mode).width = 585 ∧ (convert img mode).height = 559 := by
  refine ⟨convert_eq_of_ne img mode h, ?_, ?_⟩ <;>
    rw [convert_eq_of_ne img mode h]
  · exact convertWith_width _ _ _ _ _
  · exact convertWith_height _ _ _ _ _

/-- Witness for the amended claim C2 at a concrete unknown mode. -/
theorem convert_unknown_mode_behaves_as_reverse_witness :
    convert (blank 1 1) "whatever" =
      convertWith polyMapData rbxMapData 585 559 (blank 1 1) :=
  (convert_unknown_mode_behaves_as_reverse "whatever" (by decide)
    (blank 1 1)).1

/-- Claim C3: converting a 585x559 source whose only marker is a red pixel
at `(199, 74)` — the top-left corner of region index 0 of `top_parts` of
the Polytoria map — in the Polytoria-to-Roblox direction yields red at the
top-left corner `(231, 8)` of the corresponding Roblox region
`[231, 8, 128, 64]`. -/
theorem convert_red_marker_top_corner :
    getPixel (convert redMarkerImage "poly2rbx") 231 8 = Color.red := by
  decide

/-- Claim C4: when the destination category has fewer regions than the
source category, the copy loop performs exactly the index-matched pairs
(the excess source regions are skipped, no failure), and the conversion
still produces a full-size output raster for any pair of maps. -/
theorem convert_shorter_destination_skips (src dst : List Rect)
    (h : dst.length < src.length) :
    categoryCopies src dst = src.zip dst ∧
    (categoryCopies src dst).length = dst.length ∧
    ∀ (srcMap dstMap : MapData) (w hh : Nat) (img : Image),
      (convertWith srcMap dstMap w hh img).width = w ∧
      (convertWith srcMap dstMap w hh img).height = hh := by
  refine ⟨categoryCopies_eq_zip src dst, ?_, ?_⟩
  · rw [categoryCopies_eq_zip src dst, List.length_zip]
    omega
  · intro srcMap dstMap w hh img
    exact ⟨convertWith_width _ _ _ _ _, convertWith_height _ _ _ _ _⟩

/-- Witness for claim C4: an empty destination category skips all six
source regions of the Roblox `top_parts` category. -/
theorem convert_shorter_destination_skips_witness :
    categoryCopies rbxMapData.top_parts ([] : List Rect) =
      rbxMapData.top_parts.zip ([] : List Rect) :=
  (convert_shorter_destination_skips rbxMapData.top_parts ([] : List Rect)
    (by decide)).1

/-- Claim C5: a decoded source image whose dimensions differ from the
source platform's canonical size is converted anyway: the output still has
the destination canonical size, and every source read outside the actual
image bounds yields the transparent colour. -/
theorem convert_wrong_dimensions_tolerated (img : Image) (mode : String)
    (_hdim : ¬ (img.width = srcCanonicalWidth mode ∧
                img.height = srcCanonicalHeight mode)) :
    (convert img mode).width = canvasWidth mode ∧
    (convert img mode).height = canvasHeight mode ∧
    ∀ x y : Nat, img.width ≤ x ∨ img.height ≤ y →
      getPixel img x y = Color.clear := by
  refine ⟨?_, ?_, fun x y h => getPixel_oob img x y h⟩ <;>
    by_cases hm : mode = "rbx2poly"
  · rw [convert_eq_of_eq img mode hm]
    unfold canvasWidth
    rw [if_pos hm]
    exact convertWith_width _ _ _ _ _
  · rw [convert_eq_of_ne img mode hm]
    unfold canvasWidth
    rw [if_neg hm]
    exact convertWith_width _ _ _ _ _
  · rw [convert_eq_of_eq img mode hm]
    unfold canvasHeight
    rw [if_pos hm]
    exact convertWith_height _ _ _ _ _
  · rw [convert_eq_of_ne img mode hm]
    unfold canvasHeight
    rw [if_neg hm]
    exact convertWith_height _ _ _ _ _

/-- Witness for claim C5 at a 1x1 source image. -/
theorem convert_wrong_dimensions_tolerated_witness :
    (convert (blank 1 1) "rbx2poly").width = canvasWidth "rbx2poly" :=
  (convert_wrong_dimensions_tolerated (blank 1 1) "rbx2poly"
    (by decide)).1

/-- Claim C6: the conversion is deterministic — equal input image and mode
give equal outputs — and it is exactly the fold of the fixed ordered copy
sequence (`top_parts` then `bottom_parts`, regions in ascending index
order) over a fresh canvas of the mode's canonical size. -/
theorem convert_deterministic_fixed_order :
    (∀ (imga imgb : Image) (ma mb : String),
      imga = imgb → ma = mb → convert imga ma = convert imgb mb) ∧
    ∀ (img : Image) (mode : String),
      convert img mode =
        (copySequenceOf mode).foldl
          (fun canvas sd => drawImage img sd.1 sd.2 canvas)
          (blank (canvasWidth mode) (canvasHeight mode)) := by
  constructor
  · intro imga imgb ma mb h1 h2
    rw [h1, h2]
  · intro img mode
    by_cases h : mode = "rbx2poly" <;>
      simp [convert, convertWith, copySequenceOf, canvasWidth,
        canvasHeight, h]

/-- Witness for claim C6: two identical invocations agree. -/
theorem convert_deterministic_fixed_order_witness :
    convert (blank 1 1) "rbx2poly" = convert (blank 1 1) "rbx2poly" :=
  convert_deterministic_fixed_order.1 (blank 1 1) (blank 1 1)
    "rbx2poly" "rbx2poly" rfl rfl

/-- Claim C8: in both compiled-in maps every rectangle has strictly
positive width and height and lies inside its platform's canonical canvas
(585x559 for the Roblox map, 1024x1024 for the Polytoria map); the
rectangles of each map are pairwise disjoint within and across the two
categories; consequently every output pixel outside all destination
rectangles stays transparent, and the conversion output is invariant under
any permutation of the region-copy sequence. -/
theorem layout_rects_wellformed_disjoint :
    (∀ r ∈ allRects rbxMapData, rectPositive r ∧ rectInCanvas r 585 559) ∧
    (∀ r ∈ allRects polyMapData,
      rectPositive r ∧ rectInCanvas r 1024 1024) ∧
    List.Pairwise rectDisjoint (allRects rbxMapData) ∧
    List.Pairwise rectDisjoint (allRects polyMapData) ∧
    (∀ (img : Image) (mode : String) (x y : Nat),
      (∀ p ∈ copySequenceOf mode, ¬ inRect x y p.2) →
      (convert img mode).pix x y = Color.clear) ∧
    ∀ (mode : String) (img : Image) (l' : List (Rect × Rect)),
      (copySequenceOf mode).Perm l' →
      convert img mode =
        l'.foldl (fun canvas sd => drawImage img sd.1 sd.2 canvas)
          (blank (canvasWidth mode) (canvasHeight mode)) := by
  refine ⟨by decide, by decide, by decide, by decide, ?_, ?_⟩
  · intro img mode x y h
    by_cases hm : mode = "rbx2poly"
    · have hseq : copySequenceOf mode = copySequence rbxMapData polyMapData := by
        unfold copySequenceOf; rw [if_pos hm]
      rw [hseq] at h
      rw [convert_eq_of_eq img mode hm]
      unfold convertWith
      rw [foldl_draw_pix_outside img _ _ x y h]
      rfl
    · have hseq : copySequenceOf mode = copySequence polyMapData rbxMapData := by
        unfold copySequenceOf; rw [if_neg hm]
      rw [hseq] at h
      rw [convert_eq_of_ne img mode hm]
      unfold convertWith
      rw [foldl_draw_pix_outside img _ _ x y h]
      rfl
  · intro mode img l' hperm
    by_cases hm : mode = "rbx2poly"
    · have hseq : copySequenceOf mode = copySequence rbxMapData polyMapData := by
        unfold copySequenceOf; rw [if_pos hm]
      rw [hseq] at hperm
      have hcw : canvasWidth mode = 1024 := by
        unfold canvasWidth; rw [if_pos hm]
      have hch : canvasHeight mode = 1024 := by
        unfold canvasHeight; rw [if_pos hm]
      rw [hcw, hch, convert_eq_of_eq img mode hm]
      unfold convertWith
      exact foldl_draw_perm img hperm (by decide) (blank 1024 1024)
    · have hseq : copySequenceOf mode = copySequence polyMapData rbxMapData := by
        unfold copySequenceOf; rw [if_neg hm]
      rw [hseq] at hperm
      have hcw : canvasWidth mode = 585 := by
        unfold canvasWidth; rw [if_neg hm]
      have hch : canvasHeight mode = 559 := by
        unfold canvasHeight; rw [if_neg hm]
      rw [hcw, hch, convert_eq_of_ne img mode hm]
      unfold convertWith
      exact foldl_draw_perm img hperm (by decide) (blank 585 559)

/-- Witness for claim C8 at concrete inputs: the corner pixel of the
output is transparent, and the identity permutation reproduces the fold. -/
theorem layout_rects_wellformed_disjoint_witness :
    (convert (blank 585 559) "rbx2poly").pix 0 0 = Color.clear ∧
    convert (blank 1 1) "poly2rbx" =
      (copySequenceOf "poly2rbx").foldl
        (fun canvas sd => drawImage (blank 1 1) sd.1 sd.2 canvas)
        (blank (canvasWidth "poly2rbx") (canvasHeight "poly2rbx")) :=
  ⟨layout_rects_wellformed_disjoint.2.2.2.2.1 (blank 585 559) "rbx2poly"
      0 0 (by decide),
   layout_rects_wellformed_disjoint.2.2.2.2.2 "poly2rbx" (blank 1 1) _
      (List.Perm.refl _)⟩

/-- Claim C9 counterexample: a checked mode whose value is the empty string
is a value other than `rbx2poly`, yet the JavaScript `||` fallback maps it
back to `rbx2poly`, so the conversion runs in the Roblox-to-Polytoria
direction (1024-wide output), not the Polytoria-to-Roblox one. -/
theorem empty_mode_selected_runs_rbx2poly :
    resolveMode (some "") = "rbx2poly" ∧
    (convertFromSelection (some "") (blank 585 559)).width = 1024 := by
  constructor
  · rfl
  · have h : convertFromSelection (some "") (blank 585 559) =
        convertWith rbxMapData polyMapData 1024 1024 (blank 585 559) := rfl
    rw [h]
    exact convertWith_width _ _ _ _ _

/-- Claim C9 amended: with no mode selected the conversion runs in the
Roblox-to-Polytoria direction; a selected mode whose value is a non-empty
string other than `rbx2poly` runs the Polytoria-to-Roblox direction; and no
selection value ever aborts the conversion — the output always has one of
the two canonical sizes. -/
theorem mode_selection_direction (s : String) (h1 : s ≠ "")
    (h2 : s ≠ "rbx2poly") (img : Image) :
    resolveMode none = "rbx2poly" ∧
    convertFromSelection none img =
      convertWith rbxMapData polyMapData 1024 1024 img ∧
    convertFromSelection (some s) img =
      convertWith polyMapData rbxMapData 585 559 img ∧
    ∀ sel : Option String,
      ((convertFromSelection sel img).width = 1024 ∧
        (convertFromSelection sel img).height = 1024) ∨
      ((convertFromSelection sel img).width = 585 ∧
        (convertFromSelection sel img).height = 559) := by
  refine ⟨rfl, rfl, ?_, ?_⟩
  · have hres : resolveMode (some s) = s := by
      simp [resolveMode, h1]
    unfold convertFromSelection
    rw [hres]
    exact convert_eq_of_ne img s h2
  · intro sel
    by_cases hm : resolveMode sel = "rbx2poly"
    · left
      unfold convertFromSelection
      rw [convert_eq_of_eq img (resolveMode sel) hm]
      exact ⟨convertWith_width _ _ _ _ _, convertWith_height _ _ _ _ _⟩
    · right
      unfold convertFromSelection
      rw [convert_eq_of_ne img (resolveMode sel) hm]
      exact ⟨convertWith_width _ _ _ _ _, convertWith_height _ _ _ _ _⟩

/-- Witness for the amended claim C9 at a concrete reverse-mode value. -/
theorem mode_selection_direction_witness :
    convertFromSelection (some "poly2rbx") (blank 1 1) =
      convertWith polyMapData rbxMapData 585 559 (blank 1 1) :=
  (mode_selection_direction "poly2rbx" (by decide) (by decide)
    (blank 1 1)).2.2.1

/-- Claim C10: for every mode the two script variants perform the same
ordered list of (source rectangle, destination rectangle) copies onto a
destination canvas of the same dimensions. -/
theorem variants_same_copy_sequence (mode : String) :
    copySequenceOf mode = Part000.copySequenceOf mode ∧
    canvasWidth mode = Part000.canvasWidth mode ∧
    canvasHeight mode = Part000.canvasHeight mode := by
  by_cases h : mode = "rbx2poly"
  · subst h
    exact ⟨by decide, by decide, by decide⟩
  · unfold copySequenceOf Part000.copySequenceOf canvasWidth
      Part000.canvasWidth canvasHeight Part000.canvasHeight
    simp only [if_neg h]
    exact ⟨by decide, trivial, trivial⟩
